import Mathlib

/-! DocumentScanner (src/index.js): coordinate remapping and session handlers

A shallow embedding of the `DocumentScanner` component of `src/index.js`:
its instance fields, its React state and the handlers that read and write them.

Numbers.  JavaScript numbers are IEEE 754 binary64 values and are modelled by
`JSNum`: a finite value is carried as the rational it denotes, and `Infinity`,
`-Infinity` and `NaN` are kept.  Every sum, difference, product and quotient of
finite values is rounded to the nearest binary64 value, ties to even (`rnd`):
53 significant bits, subnormals below `2 ^ (-1022)`, overflow to an infinity,
underflow to zero.  Negative zero is identified with zero.

State.  `this.setState(patch)` is modelled as an immediate merge of `patch`
into the state; a handler runs to completion without another handler
interleaving.  The external services (`camera.takePictureAsync`,
`RNDocumentScanner.detectEdges`, `RNDocumentScanner.crop`) are parameters
(`Services`), and every call to them is recorded in a call log.
-/

namespace DocumentScanner

/-! ## JavaScript numbers -/

/-- A JavaScript number: a finite value, plus or minus infinity, or NaN. -/
inductive JSNum where
  | fin (q : ℚ)
  | pinf
  | ninf
  | nan
  deriving DecidableEq

namespace JSNum

/-- Rounding of a rational to the nearest integer, a tie going to the even one. -/
def roundTiesEven (m : ℚ) : ℤ :=
  if m - ⌊m⌋ < 1 / 2 then ⌊m⌋
  else if 1 / 2 < m - ⌊m⌋ then ⌊m⌋ + 1
  else if ⌊m⌋ % 2 = 0 then ⌊m⌋ else ⌊m⌋ + 1

/-- The exponent of the unit in the last place at `q`: 52 below the binary exponent of `q`,
and `-1074` throughout the subnormal range. -/
def ulpExp (q : ℚ) : ℤ := max (Int.log 2 |q|) (-1022) - 52

/-- The binary64 value of an exact result `q`: the nearest multiple of the unit in the last
place, ties to even, and an infinity from `2 ^ 1024` on. -/
def rnd (q : ℚ) : JSNum :=
  let r : ℚ := (roundTiesEven (|q| / (2 : ℚ) ^ ulpExp q) : ℚ) * (2 : ℚ) ^ ulpExp q
  if (2 : ℚ) ^ (1024 : ℤ) ≤ r then (if 0 < q then pinf else ninf)
  else fin (if 0 < q then r else -r)

/-- Unary minus. -/
def neg : JSNum → JSNum
  | fin q => fin (-q)
  | pinf => ninf
  | ninf => pinf
  | nan => nan

/-- The infinity with the sign of a non-zero rational. -/
def infOfSign (q : ℚ) : JSNum := if 0 < q then pinf else ninf

/-- JavaScript `a + b` on numbers. -/
def add : JSNum → JSNum → JSNum
  | nan, _ => nan
  | _, nan => nan
  | fin a, fin b => rnd (a + b)
  | fin _, pinf => pinf
  | fin _, ninf => ninf
  | pinf, fin _ => pinf
  | ninf, fin _ => ninf
  | pinf, pinf => pinf
  | ninf, ninf => ninf
  | pinf, ninf => nan
  | ninf, pinf => nan

/-- JavaScript `a - b` on numbers. -/
def sub (a b : JSNum) : JSNum := add a (neg b)

/-- JavaScript `a * b` on numbers. -/
def mul : JSNum → JSNum → JSNum
  | nan, _ => nan
  | _, nan => nan
  | fin a, fin b => rnd (a * b)
  | fin a, pinf => if a = 0 then nan else infOfSign a
  | fin a, ninf => if a = 0 then nan else infOfSign (-a)
  | pinf, fin b => if b = 0 then nan else infOfSign b
  | ninf, fin b => if b = 0 then nan else infOfSign (-b)
  | pinf, pinf => pinf
  | ninf, ninf => pinf
  | pinf, ninf => ninf
  | ninf, pinf => ninf

/-- JavaScript `a / b` on numbers (a zero divisor is taken as `+0`). -/
def div : JSNum → JSNum → JSNum
  | nan, _ => nan
  | _, nan => nan
  | fin a, fin b =>
      if b = 0 then (if a = 0 then nan else infOfSign a) else rnd (a / b)
  | fin _, pinf => fin 0
  | fin _, ninf => fin 0
  | pinf, fin b => if 0 ≤ b then pinf else ninf
  | ninf, fin b => if 0 ≤ b then ninf else pinf
  | pinf, pinf => nan
  | ninf, ninf => nan
  | pinf, ninf => nan
  | ninf, pinf => nan

/-- JavaScript truthiness of a number: everything but `0` and `NaN`. -/
def truthy : JSNum → Bool
  | fin q => decide (q ≠ 0)
  | pinf => true
  | ninf => true
  | nan => false

/-- JavaScript `a || b` on numbers. -/
def or (a b : JSNum) : JSNum := if a.truthy then a else b

/-- `ToNumber` of a property read that may be `undefined`: `undefined` becomes `NaN`. -/
def ofProperty : Option JSNum → JSNum
  | some n => n
  | none => nan

end JSNum

/-! ## Data model -/

/-- A point `{ x, y }`. -/
structure Point where
  x : JSNum
  y : JSNum
  deriving DecidableEq

/-- A layout rectangle `{ x, y, width, height }` of a layout event. -/
structure Layout where
  x : JSNum
  y : JSNum
  width : JSNum
  height : JSNum
  deriving DecidableEq

/-- The value of `zoomOnPoint`: `null`, `undefined` (an index outside the array) or a point. -/
inductive ZoomOnPoint where
  | null
  | undefined
  | point (p : Point)
  deriving DecidableEq

/-- The component: the four instance fields set in the constructor and the React state
`{ photo, points, zoomOnPoint, layout }`.  `layout = none` is the empty object `{}` of the
constructor, whose `width` and `height` read as `undefined`. -/
structure Component where
  layoutRNRatioX : JSNum
  layoutRNRatioY : JSNum
  layoutRNOriginX : JSNum
  layoutRNOriginY : JSNum
  photo : Option String
  points : List Point
  zoomOnPoint : ZoomOnPoint
  layout : Option Layout
  deriving DecidableEq

/-- The component as the constructor leaves it. -/
def constructor : Component :=
  { layoutRNRatioX := .fin 1
    layoutRNRatioY := .fin 1
    layoutRNOriginX := .fin 0
    layoutRNOriginY := .fin 0
    photo := none
    points := []
    zoomOnPoint := .null
    layout := none }

/-- `oldLayout.width`, `undefined` on the empty object. -/
def oldWidth (l : Option Layout) : Option JSNum := l.map Layout.width

/-- `oldLayout.height`, `undefined` on the empty object. -/
def oldHeight (l : Option Layout) : Option JSNum := l.map Layout.height

/-! ## Handlers -/

/-- `restart`: `this.setState(this.initialState)`, with
`initialState = { photo: null, points: [], zoomOnPoint: null }`. -/
def restart (c : Component) : Component :=
  { c with photo := none, points := [], zoomOnPoint := .null }

/-- The per-point map of `_getPointsForRNLayout`. -/
def toRNLayout (rx ry ox oy : JSNum) (point : Point) : Point :=
  { x := (point.x.mul rx).add ox
    y := (point.y.mul ry).add oy }

/-- The per-point map of `_getPointsForNativeLayout`. -/
def toNativeLayout (rx ry ox oy : JSNum) (point : Point) : Point :=
  { x := (point.x.div rx).sub ox
    y := (point.y.div ry).sub oy }

/-- `_getPointsForRNLayout`. -/
def _getPointsForRNLayout (c : Component) : List Point :=
  c.points.map
    (toRNLayout c.layoutRNRatioX c.layoutRNRatioY c.layoutRNOriginX c.layoutRNOriginY)

/-- `_getPointsForNativeLayout`. -/
def _getPointsForNativeLayout (c : Component) : List Point :=
  c.points.map
    (toNativeLayout c.layoutRNRatioX c.layoutRNRatioY c.layoutRNOriginX c.layoutRNOriginY)

/-- `_handleLayout`: the four instance fields are assigned first, then the state is
updated with the new layout and the points re-projected with the fields just assigned. -/
def _handleLayout (layout : Layout) (c : Component) : Component :=
  let oldLayout := c.layout
  let c1 : Component :=
    { c with
      layoutRNRatioX := (layout.width.div (JSNum.ofProperty (oldWidth oldLayout))).or (.fin 1)
      layoutRNRatioY := (layout.height.div (JSNum.ofProperty (oldHeight oldLayout))).or (.fin 1)
      layoutRNOriginX := layout.x
      layoutRNOriginY := layout.y }
  { c1 with layout := some layout, points := _getPointsForRNLayout c1 }

/-- The gesture state passed to a move handler: the displacement accumulated since the
gesture started. -/
structure GestureState where
  dx : JSNum
  dy : JSNum
  deriving DecidableEq

/-- The handlers built by `PanResponder.create`, each acting on the current state. -/
structure PanResponder where
  onPanResponderGrant : Component → Component
  onPanResponderMove : GestureState → Component → Component
  onPanResponderRelease : Component → Component

/-- The array read `points[pointIndex]`. -/
def pointAt (points : List Point) (pointIndex : Nat) : ZoomOnPoint :=
  match points[pointIndex]? with
  | some p => .point p
  | none => .undefined

/-- The callback given to `points.map` in `onPanResponderMove`. -/
def movePoint (pointIndex : Nat) (gestureState : GestureState) (index : Nat) (point : Point) :
    Point :=
  if index = pointIndex then
    { x := point.x.add gestureState.dx
      y := point.y.add gestureState.dy }
  else point

/-- `_createPanResponderForPoint`: `points` is read from the state once, when the responder
is created, and the three handlers close over it. -/
def _createPanResponderForPoint (c : Component) (pointIndex : Nat) : PanResponder :=
  let points := c.points
  { onPanResponderGrant := fun s => { s with zoomOnPoint := pointAt points pointIndex }
    onPanResponderMove := fun gestureState s =>
      { s with
        points := points.mapIdx (movePoint pointIndex gestureState)
        zoomOnPoint := pointAt points pointIndex }
    onPanResponderRelease := fun s => { s with zoomOnPoint := .null } }

/-! ## External services -/

/-- The external collaborators; each either resolves with a value or rejects with an error. -/
structure Services where
  takePictureAsync : Except String String
  detectEdges : String → Option Layout → Except String (List Point)
  crop : List Point → Except String String

/-- A call that leaves the component. -/
inductive Call where
  | takePictureAsync
  | detectEdges (path : String) (layout : Option Layout)
  | crop (points : List Point)
  | onCapture
  deriving DecidableEq

/-- What an asynchronous handler did: the calls it made, in order, the state it left and
the value its promise resolved with (or the error it rejected with). -/
structure Run (α : Type) where
  calls : List Call
  state : Component
  result : Except String α

/-- JavaScript `s.replace(pat, rep)` with a string pattern: the first occurrence only. -/
def replaceFirst (pat rep : List Char) : List Char → List Char
  | [] => if pat = [] then rep else []
  | c :: cs =>
      if pat.isPrefixOf (c :: cs) then rep ++ (c :: cs).drop pat.length
      else c :: replaceFirst pat rep cs

/-- The argument `uri.replace('file://', '')` of `detectEdges`. -/
def nativePath (uri : String) : String :=
  String.mk (replaceFirst "file://".toList [] uri.toList)

/-- `cropImage`: the crop service is called with the back-projected points and its promise
is returned. -/
def cropImage (sv : Services) (c : Component) : Run String :=
  let points := _getPointsForNativeLayout c
  { calls := [.crop points], state := c, result := sv.crop points }

/-- `_handlePressCapture`: a rejected `await` rejects the handler before `setState`. -/
def _handlePressCapture (sv : Services) (c : Component) : Run Unit :=
  let layout := c.layout
  match sv.takePictureAsync with
  | .error e => { calls := [.takePictureAsync], state := c, result := .error e }
  | .ok uri =>
    match sv.detectEdges (nativePath uri) layout with
    | .error e =>
      { calls := [.takePictureAsync, .detectEdges (nativePath uri) layout]
        state := c
        result := .error e }
    | .ok points =>
      { calls := [.takePictureAsync, .detectEdges (nativePath uri) layout, .onCapture]
        state := { c with photo := some uri, points := points }
        result := .ok () }

/-! ## Scenario data -/

/-- The point with finite coordinates `(a, b)`. -/
def pt (a b : ℚ) : Point := { x := .fin a, y := .fin b }

/-- The layout of size `w` by `h` at origin `(x, y)`, all finite. -/
def rect (x y w h : ℚ) : Layout := { x := .fin x, y := .fin y, width := .fin w, height := .fin h }

/-- The four corners the detector returns in scenario 6 of the specification. -/
def scenarioPoints : List Point := [pt 10 10, pt 100 10, pt 100 100, pt 10 100]

/-- A component showing a photo with the four scenario corners in a 200 by 200 layout. -/
def editing200 : Component :=
  { constructor with
    photo := some "file:///img1.jpg"
    points := scenarioPoints
    layout := some (rect 0 0 200 200) }

/-- A component whose stored layout is `l`, otherwise as constructed. -/
def withLayout (l : Layout) : Component := { constructor with layout := some l }

/-- The corners of scenario 6 after projection to the 400 by 400 layout. -/
def displayedPoints : List Point := [pt 20 20, pt 200 20, pt 200 200, pt 20 200]

/-- A component showing a photo in which no document was detected. -/
def noDocument : Component := { editing200 with points := [] }

/-- A camera-live component whose layout went from 200 by 200 to 400 by 400, so that the
ratio in force is `2` on both axes. -/
def live400 : Component := _handleLayout (rect 0 0 400 400) (withLayout (rect 0 0 200 200))

/-- A component showing a photo with one point at `(360, 360)` in a 360 by 360 layout. -/
def phone360 : Component :=
  { editing200 with
    points := [pt 360 360]
    layout := some (rect 0 0 360 360) }

/-- Services that all succeed: the photo is `img1`, the detector finds the scenario corners. -/
def scenarioServices : Services :=
  { takePictureAsync := .ok "file:///img1.jpg"
    detectEdges := fun _ _ => .ok scenarioPoints
    crop := fun _ => .ok "/cache/cropped.jpg" }

/-- Services whose detector rejects. -/
def detectionFails : Services :=
  { scenarioServices with detectEdges := fun _ _ => .error "detectEdges rejected" }

/-! ## Rounding to binary64 -/

namespace JSNum

/-- A value within half a unit of the integer `n` rounds to `n`. -/
theorem roundTiesEven_of_near {m : ℚ} {n : ℤ} (h1 : (n : ℚ) - 1 / 2 < m)
    (h2 : m < (n : ℚ) + 1 / 2) : roundTiesEven m = n := by
  unfold roundTiesEven
  have hf1 : ((⌊m⌋ : ℤ) : ℚ) ≤ m := Int.floor_le m
  have hf2 : m < (⌊m⌋ : ℚ) + 1 := Int.lt_floor_add_one m
  have hcases : ⌊m⌋ = n ∨ ⌊m⌋ = n - 1 := by
    have h3 : n - 1 ≤ ⌊m⌋ := by
      have h : ((n - 1 : ℤ) : ℚ) < ((⌊m⌋ + 1 : ℤ) : ℚ) := by push_cast; linarith
      have := (Int.cast_lt (R := ℚ)).mp h
      omega
    have h4 : ⌊m⌋ ≤ n := by
      have h : ((⌊m⌋ : ℤ) : ℚ) < ((n + 1 : ℤ) : ℚ) := by push_cast; linarith
      have := (Int.cast_lt (R := ℚ)).mp h
      omega
    omega
  rcases hcases with h | h
  · have hlt : m - (⌊m⌋ : ℚ) < 1 / 2 := by rw [h]; linarith
    rw [if_pos hlt, h]
  · have hfe : ((⌊m⌋ : ℤ) : ℚ) = (n : ℚ) - 1 := by rw [h]; push_cast; ring
    have hnlt : ¬ (m - (⌊m⌋ : ℚ) < 1 / 2) := by rw [hfe]; intro hh; linarith
    have hgt : 1 / 2 < m - (⌊m⌋ : ℚ) := by rw [hfe]; linarith
    rw [if_neg hnlt, if_pos hgt, h]; ring

/-- Rounding to an integer never goes below the floor. -/
theorem floor_le_roundTiesEven (m : ℚ) : ⌊m⌋ ≤ roundTiesEven m := by
  unfold roundTiesEven
  split_ifs <;> omega

/-- The unit in the last place of a positive value with binary exponent `e`. -/
theorem ulpExp_eq {q : ℚ} {e : ℤ} (hq : 0 < q) (he1 : (2 : ℚ) ^ e ≤ q)
    (he2 : q < (2 : ℚ) ^ (e + 1)) (hemin : -1022 ≤ e) : ulpExp q = e - 52 := by
  have hlog : Int.log 2 |q| = e := by
    rw [abs_of_pos hq]
    have h1 : e ≤ Int.log 2 q :=
      (Int.zpow_le_iff_le_log (by norm_num) hq).mp (by exact_mod_cast he1)
    have h2 : Int.log 2 q < e + 1 :=
      (Int.lt_zpow_iff_log_lt (by norm_num) hq).mp (by exact_mod_cast he2)
    omega
  unfold ulpExp
  rw [hlog, max_eq_left hemin]

/-- Evaluation of `rnd` at a positive value of binary exponent `e` in the normal range that
lies within half a unit in the last place of `n` units. -/
theorem rnd_eq_of_near {q : ℚ} (e n : ℤ) (hq : 0 < q) (he1 : (2 : ℚ) ^ e ≤ q)
    (he2 : q < (2 : ℚ) ^ (e + 1)) (hemin : -1022 ≤ e)
    (h1 : (n : ℚ) - 1 / 2 < q / (2 : ℚ) ^ (e - 52))
    (h2 : q / (2 : ℚ) ^ (e - 52) < (n : ℚ) + 1 / 2)
    (hmax : (n : ℚ) * (2 : ℚ) ^ (e - 52) < (2 : ℚ) ^ (1024 : ℤ)) :
    rnd q = fin ((n : ℚ) * (2 : ℚ) ^ (e - 52)) := by
  unfold rnd
  simp only [ulpExp_eq hq he1 he2 hemin, abs_of_pos hq, roundTiesEven_of_near h1 h2,
    not_le.mpr hmax, if_false, if_pos hq]

theorem rnd_zero : rnd 0 = fin 0 := by
  have h : ¬ ((2 : ℚ) ^ (1024 : ℤ) ≤ 0) := not_le.mpr (by positivity)
  simp [rnd, roundTiesEven, h]

/-- A natural number below `2 ^ 53` is a binary64 value. -/
theorem rnd_natCast (n : ℕ) (h : n < 2 ^ 53) : rnd (n : ℚ) = fin (n : ℚ) := by
  rcases Nat.eq_zero_or_pos n with h0 | hpos
  · subst h0; simpa using rnd_zero
  have hn0 : n ≠ 0 := Nat.pos_iff_ne_zero.mp hpos
  have hlog : Nat.log 2 n < 53 := Nat.log_lt_of_lt_pow hn0 h
  obtain ⟨k, hk⟩ : ∃ k : ℕ, Nat.log 2 n + k = 52 := ⟨52 - Nat.log 2 n, by omega⟩
  have hq : (0 : ℚ) < (n : ℚ) := by exact_mod_cast hpos
  have he1 : (2 : ℚ) ^ ((Nat.log 2 n : ℕ) : ℤ) ≤ (n : ℚ) := by
    rw [zpow_natCast]
    exact_mod_cast Nat.pow_log_le_self 2 hn0
  have he2 : (n : ℚ) < (2 : ℚ) ^ (((Nat.log 2 n : ℕ) : ℤ) + 1) := by
    have : (n : ℚ) < (2 : ℚ) ^ (Nat.log 2 n + 1) := by
      exact_mod_cast Nat.lt_pow_succ_log_self (by norm_num : 1 < 2) n
    rw [show (((Nat.log 2 n : ℕ) : ℤ) + 1) = ((Nat.log 2 n + 1 : ℕ) : ℤ) by push_cast; ring,
      zpow_natCast]
    exact this
  have hexp : ((Nat.log 2 n : ℕ) : ℤ) - 52 = -(k : ℤ) := by omega
  have hdiv : (n : ℚ) / (2 : ℚ) ^ (((Nat.log 2 n : ℕ) : ℤ) - 52) =
      (((n * 2 ^ k : ℕ) : ℤ) : ℚ) := by
    rw [hexp, zpow_neg, zpow_natCast]
    push_cast
    field_simp
  have hmul : ((((n * 2 ^ k : ℕ) : ℤ) : ℚ)) * (2 : ℚ) ^ (((Nat.log 2 n : ℕ) : ℤ) - 52) =
      (n : ℚ) := by
    rw [hexp, zpow_neg, zpow_natCast]
    push_cast
    field_simp
  have hmax : (n : ℚ) < (2 : ℚ) ^ (1024 : ℤ) := by
    have h1 : (n : ℚ) < (2 : ℚ) ^ (53 : ℕ) := by exact_mod_cast h
    have h2 : (2 : ℚ) ^ (53 : ℕ) ≤ (2 : ℚ) ^ (1024 : ℤ) := by
      rw [show (1024 : ℤ) = ((1024 : ℕ) : ℤ) by norm_num, zpow_natCast]
      exact pow_le_pow_right₀ (by norm_num) (by norm_num)
    linarith
  have := rnd_eq_of_near (q := (n : ℚ)) ((Nat.log 2 n : ℕ) : ℤ) ((n * 2 ^ k : ℕ) : ℤ) hq he1 he2
    (by omega) (by rw [hdiv]; linarith) (by rw [hdiv]; linarith) (by rw [hmul]; exact hmax)
  rw [this, hmul]

/-- A numeral below `2 ^ 53` is a binary64 value. -/
theorem rnd_ofNat (n : ℕ) (h : n < 2 ^ 53) :
    rnd (no_index (@OfNat.ofNat ℚ n Rat.instOfNat)) = fin (@OfNat.ofNat ℚ n Rat.instOfNat) := by
  have := rnd_natCast n h
  simpa using this

theorem rnd_one : rnd 1 = fin 1 := by
  simpa using rnd_natCast 1 (by norm_num)

/-- Rounding never produces `NaN`. -/
theorem rnd_ne_nan (q : ℚ) : rnd q ≠ nan := by
  unfold rnd
  intro h
  simp only at h
  split_ifs at h

/-- A value of magnitude at least `2 ^ (-1074)`, the least positive binary64 value, does not
round to zero. -/
theorem rnd_ne_zero_of_le {q : ℚ} (h : (2 : ℚ) ^ (-1074 : ℤ) ≤ |q|) : rnd q ≠ fin 0 := by
  have habs : 0 < |q| := lt_of_lt_of_le (by positivity) h
  have hq0 : q ≠ 0 := abs_pos.mp habs
  have hpow : (0 : ℚ) < (2 : ℚ) ^ ulpExp q := by positivity
  have hulp : (2 : ℚ) ^ ulpExp q ≤ |q| := by
    unfold ulpExp
    rcases le_total (Int.log 2 |q|) (-1022) with hl | hl
    · rw [max_eq_right hl]
      norm_num
      norm_num at h
      exact h
    · rw [max_eq_left hl]
      calc (2 : ℚ) ^ (Int.log 2 |q| - 52) ≤ (2 : ℚ) ^ (Int.log 2 |q|) :=
            zpow_le_zpow_right₀ (by norm_num) (by omega)
        _ ≤ |q| := by exact_mod_cast Int.zpow_log_le_self (by norm_num) habs
  have hm : (1 : ℚ) ≤ |q| / (2 : ℚ) ^ ulpExp q := by
    rw [le_div_iff₀ hpow]
    linarith
  have hfloor : (1 : ℤ) ≤ ⌊|q| / (2 : ℚ) ^ ulpExp q⌋ := Int.le_floor.mpr (by exact_mod_cast hm)
  have hn : (1 : ℤ) ≤ roundTiesEven (|q| / (2 : ℚ) ^ ulpExp q) :=
    le_trans hfloor (floor_le_roundTiesEven _)
  have hr : (0 : ℚ) < (roundTiesEven (|q| / (2 : ℚ) ^ ulpExp q) : ℚ) * (2 : ℚ) ^ ulpExp q := by
    have : (0 : ℚ) < (roundTiesEven (|q| / (2 : ℚ) ^ ulpExp q) : ℚ) := by exact_mod_cast hn
    positivity
  unfold rnd
  intro hz
  simp only at hz
  split_ifs at hz with h1 h2 h2
  · simp only [fin.injEq] at hz; linarith
  · simp only [fin.injEq] at hz; linarith

end JSNum

/-! ## Arithmetic on finite values -/

namespace JSNum

theorem add_fin (a b : ℚ) : (fin a).add (fin b) = rnd (a + b) := rfl

theorem mul_fin (a b : ℚ) : (fin a).mul (fin b) = rnd (a * b) := rfl

theorem sub_fin (a b : ℚ) : (fin a).sub (fin b) = rnd (a - b) := by
  simp [sub, neg, add, sub_eq_add_neg]

theorem div_fin {b : ℚ} (a : ℚ) (hb : b ≠ 0) : (fin a).div (fin b) = rnd (a / b) := by
  simp [div, hb]

theorem or_fin {a : ℚ} (ha : a ≠ 0) (d : JSNum) : (fin a).or d = fin a := by
  simp [or, truthy, ha]

/-- Every number but `0` and `NaN` is truthy. -/
theorem truthy_of_ne {a : JSNum} (hnan : a ≠ nan) (hzero : a ≠ fin 0) : a.truthy = true := by
  cases a with
  | fin q =>
    have : q ≠ 0 := fun h => hzero (by rw [h])
    simp [truthy, this]
  | pinf => rfl
  | ninf => rfl
  | nan => exact absurd rfl hnan

/-- The guard `a || d` keeps every `a` but `0` and `NaN`. -/
theorem or_of_ne {a : JSNum} (hnan : a ≠ nan) (hzero : a ≠ fin 0) (d : JSNum) : a.or d = a := by
  simp [or, truthy_of_ne hnan hzero]

/-- The guarded quotient `a / a || 1` is `1` for every number `a`. -/
theorem div_self_or_one (a : JSNum) : (a.div a).or (fin 1) = fin 1 := by
  cases a with
  | fin q =>
    by_cases hq : q = 0
    · simp [div, or, truthy, hq]
    · rw [div_fin _ hq, div_self hq, rnd_one]
      simp [or, truthy]
  | pinf => simp [div, or, truthy]
  | ninf => simp [div, or, truthy]
  | nan => simp [div, or, truthy]

/-- The guarded quotient `a / undefined || 1` is `1` for every number `a`. -/
theorem div_nan_or_one (a : JSNum) : (a.div nan).or (fin 1) = fin 1 := by
  cases a <;> simp [div, or, truthy]

/-- The guard `|| 1` never leaves `0` or `NaN`. -/
theorem or_one_truthy (a : JSNum) : (a.or (fin 1)).truthy = true := by
  unfold or
  split
  · assumption
  · simp [truthy]

end JSNum

/-! ## Layout changes -/

section Layout

/-- The ratio fields that `_handleLayout` stores, read off the definition. -/
theorem handleLayout_ratioX (layout : Layout) (c : Component) :
    (_handleLayout layout c).layoutRNRatioX =
      (layout.width.div (JSNum.ofProperty (oldWidth c.layout))).or (.fin 1) := rfl

theorem handleLayout_ratioY (layout : Layout) (c : Component) :
    (_handleLayout layout c).layoutRNRatioY =
      (layout.height.div (JSNum.ofProperty (oldHeight c.layout))).or (.fin 1) := rfl

theorem handleLayout_layout (layout : Layout) (c : Component) :
    (_handleLayout layout c).layout = some layout := rfl

/-- The points that `_handleLayout` stores: every stored point mapped with the new fields. -/
theorem handleLayout_points (layout : Layout) (c : Component) :
    (_handleLayout layout c).points =
      c.points.map (toRNLayout
        ((layout.width.div (JSNum.ofProperty (oldWidth c.layout))).or (.fin 1))
        ((layout.height.div (JSNum.ofProperty (oldHeight c.layout))).or (.fin 1))
        layout.x layout.y) := rfl

/-- Handling the same layout again multiplies every point by `1` and adds the origin of the
layout once more. -/
theorem handleLayout_twice (v : Layout) (c : Component) :
    (_handleLayout v (_handleLayout v c)).points =
      (_handleLayout v c).points.map (toRNLayout (.fin 1) (.fin 1) v.x v.y) := by
  rw [handleLayout_points v (_handleLayout v c), handleLayout_layout]
  simp only [oldWidth, oldHeight, Option.map_some', JSNum.ofProperty, JSNum.div_self_or_one]

/-- The guarded quotient of two finite dimensions, the old one non-zero: the rounded
quotient, or `1` if that is zero. -/
theorem ratio_eq {w0 : ℚ} (w1 : ℚ) (h0 : w0 ≠ 0) :
    ((JSNum.fin w1).div (.fin w0)).or (.fin 1) = (JSNum.rnd (w1 / w0)).or (.fin 1) := by
  rw [JSNum.div_fin _ h0]

/-- The guarded quotient is the rounded quotient when the quotient does not underflow. -/
theorem ratio_of_no_underflow {w0 w1 : ℚ} (h : (2 : ℚ) ^ (-1074 : ℤ) ≤ |w1 / w0|) :
    ((JSNum.fin w1).div (.fin w0)).or (.fin 1) = JSNum.rnd (w1 / w0) := by
  have h0 : w0 ≠ 0 := by
    intro hz
    rw [hz, div_zero, abs_zero] at h
    exact absurd h (not_le.mpr (by positivity))
  rw [JSNum.div_fin _ h0]
  exact JSNum.or_of_ne (JSNum.rnd_ne_nan _) (JSNum.rnd_ne_zero_of_le h) _

/-- The guarded quotient of two non-zero dimensions whose quotient is a binary64 value is
that quotient. -/
theorem ratio_of_exact {w0 w1 : ℚ} (h0 : w0 ≠ 0) (h1 : w1 ≠ 0)
    (hex : JSNum.rnd (w1 / w0) = .fin (w1 / w0)) :
    ((JSNum.fin w1).div (.fin w0)).or (.fin 1) = .fin (w1 / w0) := by
  rw [JSNum.div_fin _ h0, hex, JSNum.or_fin (div_ne_zero h1 h0)]

/-- The guarded quotient `400 / 200 || 1` is `2`. -/
theorem ratio_400_200 : ((JSNum.fin 400).div (.fin 200)).or (.fin 1) = .fin 2 := by
  rw [ratio_of_exact (by norm_num) (by norm_num) (by norm_num [JSNum.rnd_ofNat])]
  norm_num

end Layout

/-! ## Round trip between the two spaces -/

section RoundTrip

/-- C1, the code at the failing input: after the layout changes from 200 by 200 to
400 by 400 at origin `(2, 2)`, the transform is ratio `2`, origin `2`; the corner `(10, 10)`
is displayed at `(22, 22)` and `_getPointsForNativeLayout` sends it back to `(9, 9)`, and
the four back-projected corners differ from the four corners that were projected. -/
theorem roundTrip_at_origin_two :
    (_handleLayout (rect 2 2 400 400) editing200).layoutRNRatioX = .fin 2 ∧
    (_handleLayout (rect 2 2 400 400) editing200).layoutRNRatioY = .fin 2 ∧
    (_handleLayout (rect 2 2 400 400) editing200).layoutRNOriginX = .fin 2 ∧
    (_handleLayout (rect 2 2 400 400) editing200).layoutRNOriginY = .fin 2 ∧
    (_handleLayout (rect 2 2 400 400) editing200).points =
      scenarioPoints.map (toRNLayout (.fin 2) (.fin 2) (.fin 2) (.fin 2)) ∧
    (_handleLayout (rect 2 2 400 400) editing200).points =
      [pt 22 22, pt 202 22, pt 202 202, pt 22 202] ∧
    _getPointsForNativeLayout (_handleLayout (rect 2 2 400 400) editing200) =
      [pt 9 9, pt 99 9, pt 99 99, pt 9 99] ∧
    _getPointsForNativeLayout (_handleLayout (rect 2 2 400 400) editing200) ≠ scenarioPoints := by
  have hr := ratio_400_200
  have hp : (_handleLayout (rect 2 2 400 400) editing200).points =
      [pt 22 22, pt 202 22, pt 202 202, pt 22 202] := by
    simp only [handleLayout_points, editing200, rect, oldWidth, oldHeight, Option.map_some',
      JSNum.ofProperty, hr, scenarioPoints, pt, toRNLayout, List.map]
    norm_num [JSNum.mul_fin, JSNum.add_fin, JSNum.rnd_ofNat]
  have hn : _getPointsForNativeLayout (_handleLayout (rect 2 2 400 400) editing200) =
      [pt 9 9, pt 99 9, pt 99 99, pt 9 99] := by
    simp only [_getPointsForNativeLayout, hp, handleLayout_ratioX, handleLayout_ratioY]
    simp only [editing200, rect, oldWidth, oldHeight, Option.map_some', JSNum.ofProperty, hr,
      _handleLayout, pt, toNativeLayout, List.map]
    norm_num [JSNum.div_fin, JSNum.sub_fin, JSNum.rnd_ofNat]
  refine ⟨?_, ?_, rfl, rfl, ?_, hp, hn, ?_⟩
  · rw [handleLayout_ratioX]; exact hr
  · rw [handleLayout_ratioY]; exact hr
  · rw [hp]
    simp only [scenarioPoints, pt, toRNLayout, List.map]
    norm_num [JSNum.mul_fin, JSNum.add_fin, JSNum.rnd_ofNat]
  · rw [hn]
    simp only [scenarioPoints, pt]
    intro h
    simp only [List.cons.injEq, Point.mk.injEq, JSNum.fin.injEq] at h
    norm_num at h

end RoundTrip

/-! ## Layout events -/

section LayoutEvents

/-- C2, the code at the failing input: with four corners stored in a 200 by 200 layout,
the layout event 400 by 400 at origin `(10, 0)` handled once stores
`[(30,20),(210,20),(210,200),(30,200)]`, and handled a second time stores
`[(40,20),(220,20),(220,200),(40,200)]`: the origin is added again. -/
theorem handleLayout_twice_at_origin_ten :
    (_handleLayout (rect 10 0 400 400) editing200).points =
      [pt 30 20, pt 210 20, pt 210 200, pt 30 200] ∧
    (_handleLayout (rect 10 0 400 400) (_handleLayout (rect 10 0 400 400) editing200)).points =
      [pt 40 20, pt 220 20, pt 220 200, pt 40 200] ∧
    (_handleLayout (rect 10 0 400 400) (_handleLayout (rect 10 0 400 400) editing200)).points ≠
      (_handleLayout (rect 10 0 400 400) editing200).points := by
  have h1 : (_handleLayout (rect 10 0 400 400) editing200).points =
      [pt 30 20, pt 210 20, pt 210 200, pt 30 200] := by
    simp only [handleLayout_points, editing200, rect, oldWidth, oldHeight, Option.map_some',
      JSNum.ofProperty, ratio_400_200, scenarioPoints, pt, toRNLayout, List.map]
    norm_num [JSNum.mul_fin, JSNum.add_fin, JSNum.rnd_ofNat]
  have h2 : (_handleLayout (rect 10 0 400 400)
      (_handleLayout (rect 10 0 400 400) editing200)).points =
      [pt 40 20, pt 220 20, pt 220 200, pt 40 200] := by
    rw [handleLayout_twice, h1]
    simp only [rect, pt, toRNLayout, List.map]
    norm_num [JSNum.mul_fin, JSNum.add_fin, JSNum.rnd_ofNat]
  refine ⟨h1, h2, ?_⟩
  rw [h2, h1]
  intro h
  simp only [pt, List.cons.injEq, Point.mk.injEq, JSNum.fin.injEq] at h
  norm_num at h

/-- The binary64 quotient `414 / 360`: `1.15` is not a binary64 value and rounds down. -/
theorem div_414_360 :
    (JSNum.fin 414).div (.fin 360) = .fin (5179139571476070 / 2 ^ 52) := by
  rw [JSNum.div_fin _ (by norm_num)]
  rw [JSNum.rnd_eq_of_near (q := (414 / 360 : ℚ)) 0 5179139571476070 (by norm_num)
    (by norm_num) (by norm_num) (by norm_num) (by norm_num) (by norm_num) (by norm_num)]
  norm_num

/-- The binary64 product of `360` and the binary64 quotient `414 / 360` is the binary64
value just below `414`. -/
theorem mul_360_ratio :
    (JSNum.fin 360).mul (.fin (5179139571476070 / 2 ^ 52)) = .fin (414 - 1 / 2 ^ 44) := by
  rw [JSNum.mul_fin]
  rw [JSNum.rnd_eq_of_near (q := (360 * (5179139571476070 / 2 ^ 52) : ℚ)) 8 7283165022388223
    (by norm_num) (by norm_num) (by norm_num) (by norm_num) (by norm_num) (by norm_num)
    (by norm_num)]
  norm_num

/-- Adding the origin `0` to the binary64 value just below `414` leaves it. -/
theorem add_zero_below_414 :
    (JSNum.fin (414 - 1 / 2 ^ 44)).add (.fin 0) = .fin (414 - 1 / 2 ^ 44) := by
  rw [JSNum.add_fin]
  rw [JSNum.rnd_eq_of_near (q := (414 - 1 / 2 ^ 44 + 0 : ℚ)) 8 7283165022388223
    (by norm_num) (by norm_num) (by norm_num) (by norm_num) (by norm_num) (by norm_num)
    (by norm_num)]
  norm_num

/-- C4, counterexample: from a stored layout 360 by 360 to a new layout 414 by 414 at origin
`(0, 0)`, the stored point `(360, 360)` becomes `360 * (414 / 360)` on each axis, with the
quotient rounded first: the binary64 value just below `414` (`413.99999999999994`), whereas
`360 * 414 / 360 + 0` is `414`. -/
theorem handleLayout_rounds_ratio_first :
    (_handleLayout (rect 0 0 414 414) phone360).layoutRNRatioX =
      .fin (5179139571476070 / 2 ^ 52) ∧
    (_handleLayout (rect 0 0 414 414) phone360).points =
      [pt (414 - 1 / 2 ^ 44) (414 - 1 / 2 ^ 44)] ∧
    (((JSNum.fin 360).mul (.fin 414)).div (.fin 360)).add (.fin 0) = .fin 414 ∧
    (360 * 414 / 360 + 0 : ℚ) = 414 ∧
    (_handleLayout (rect 0 0 414 414) phone360).points ≠ [pt 414 414] := by
  have hr : ((JSNum.fin 414).div (.fin 360)).or (.fin 1) =
      .fin (5179139571476070 / 2 ^ 52) := by
    rw [div_414_360, JSNum.or_fin (by norm_num)]
  have hp : (_handleLayout (rect 0 0 414 414) phone360).points =
      [pt (414 - 1 / 2 ^ 44) (414 - 1 / 2 ^ 44)] := by
    simp only [handleLayout_points, phone360, rect, oldWidth, oldHeight, Option.map_some',
      JSNum.ofProperty, hr, pt, toRNLayout, List.map, mul_360_ratio, add_zero_below_414]
  refine ⟨?_, hp, ?_, by norm_num, ?_⟩
  · rw [handleLayout_ratioX]
    simp only [phone360, rect, oldWidth, Option.map_some', JSNum.ofProperty, hr]
  · norm_num [JSNum.mul_fin, JSNum.div_fin, JSNum.add_fin, JSNum.rnd_ofNat]
  · rw [hp]
    intro h
    simp only [pt, List.cons.injEq, Point.mk.injEq, JSNum.fin.injEq] at h
    norm_num at h

/-- C4, amended: when the layout changes from a stored layout of non-zero width `w0` and
height `h0` to a new layout of non-zero width `w1` and height `h1` at origin `(ox, oy)`,
`_handleLayout` stores as many points as before, in the same order; the stored ratios are
the binary64 quotients `w1 / w0` and `h1 / h0` (rounded; `1` in place of a quotient that
underflows to `0`), and the `i`-th stored point is the `i`-th previous point mapped by
`x * ratioX + ox`, `y * ratioY + oy` in binary64 arithmetic, the quotient being taken before
the product.  When the quotient, the product and the sum are binary64 values, that point is
`(x * w1 / w0 + a, y * h1 / h0 + b)`. -/
theorem handleLayout_scales_points (c : Component) (old : Layout) (w0 h0 w1 h1 : ℚ)
    (ox oy : JSNum) (hold : c.layout = some old)
    (hw : old.width = .fin w0) (hh : old.height = .fin h0)
    (hw0 : w0 ≠ 0) (hh0 : h0 ≠ 0) (hw1 : w1 ≠ 0) (hh1 : h1 ≠ 0) :
    (_handleLayout ⟨ox, oy, .fin w1, .fin h1⟩ c).points.length = c.points.length ∧
    (_handleLayout ⟨ox, oy, .fin w1, .fin h1⟩ c).layoutRNRatioX =
      (JSNum.rnd (w1 / w0)).or (.fin 1) ∧
    (_handleLayout ⟨ox, oy, .fin w1, .fin h1⟩ c).layoutRNRatioY =
      (JSNum.rnd (h1 / h0)).or (.fin 1) ∧
    ((2 : ℚ) ^ (-1074 : ℤ) ≤ |w1 / w0| →
      (_handleLayout ⟨ox, oy, .fin w1, .fin h1⟩ c).layoutRNRatioX = JSNum.rnd (w1 / w0)) ∧
    ((2 : ℚ) ^ (-1074 : ℤ) ≤ |h1 / h0| →
      (_handleLayout ⟨ox, oy, .fin w1, .fin h1⟩ c).layoutRNRatioY = JSNum.rnd (h1 / h0)) ∧
    (∀ (i : Nat) (p : Point), c.points[i]? = some p →
      (_handleLayout ⟨ox, oy, .fin w1, .fin h1⟩ c).points[i]? =
        some ⟨(p.x.mul (_handleLayout ⟨ox, oy, .fin w1, .fin h1⟩ c).layoutRNRatioX).add ox,
          (p.y.mul (_handleLayout ⟨ox, oy, .fin w1, .fin h1⟩ c).layoutRNRatioY).add oy⟩) ∧
    (∀ (i : Nat) (x y a b : ℚ), c.points[i]? = some (pt x y) → ox = .fin a → oy = .fin b →
      JSNum.rnd (w1 / w0) = .fin (w1 / w0) →
      JSNum.rnd (x * (w1 / w0)) = .fin (x * (w1 / w0)) →
      JSNum.rnd (x * (w1 / w0) + a) = .fin (x * (w1 / w0) + a) →
      JSNum.rnd (h1 / h0) = .fin (h1 / h0) →
      JSNum.rnd (y * (h1 / h0)) = .fin (y * (h1 / h0)) →
      JSNum.rnd (y * (h1 / h0) + b) = .fin (y * (h1 / h0) + b) →
      (_handleLayout ⟨ox, oy, .fin w1, .fin h1⟩ c).points[i]? =
        some (pt (x * w1 / w0 + a) (y * h1 / h0 + b))) := by
  have hx : (_handleLayout ⟨ox, oy, .fin w1, .fin h1⟩ c).layoutRNRatioX =
      ((JSNum.fin w1).div (.fin w0)).or (.fin 1) := by
    rw [handleLayout_ratioX]
    simp only [hold, oldWidth, Option.map_some', JSNum.ofProperty, hw]
  have hy : (_handleLayout ⟨ox, oy, .fin w1, .fin h1⟩ c).layoutRNRatioY =
      ((JSNum.fin h1).div (.fin h0)).or (.fin 1) := by
    rw [handleLayout_ratioY]
    simp only [hold, oldHeight, Option.map_some', JSNum.ofProperty, hh]
  have hp : (_handleLayout ⟨ox, oy, .fin w1, .fin h1⟩ c).points =
      c.points.map (toRNLayout (_handleLayout ⟨ox, oy, .fin w1, .fin h1⟩ c).layoutRNRatioX
        (_handleLayout ⟨ox, oy, .fin w1, .fin h1⟩ c).layoutRNRatioY ox oy) := rfl
  refine ⟨?_, ?_, ?_, ?_, ?_, ?_, ?_⟩
  · rw [hp, List.length_map]
  · rw [hx, ratio_eq _ hw0]
  · rw [hy, ratio_eq _ hh0]
  · intro h
    rw [hx, ratio_of_no_underflow h]
  · intro h
    rw [hy, ratio_of_no_underflow h]
  · intro i p hi
    rw [hp, List.getElem?_map, hi]
    rfl
  · intro i x y a b hi ha hb e1 e2 e3 e4 e5 e6
    rw [hp, List.getElem?_map, hi, hx, hy, ratio_of_exact hw0 hw1 e1,
      ratio_of_exact hh0 hh1 e4, ha, hb]
    simp only [Option.map_some', toRNLayout, pt, JSNum.mul_fin, JSNum.add_fin, e2, e3, e5, e6,
      mul_div_assoc]

/-- C4, amended, at the scenario of the specification: from 200 by 200 to 400 by 400 at
origin `(0, 0)` the corners `[(10,10),(100,10),(100,100),(10,100)]` become
`[(20,20),(200,20),(200,200),(20,200)]`. -/
theorem handleLayout_scales_points_witness :
    editing200.layout = some (rect 0 0 200 200) ∧
    (rect 0 0 200 200).width = .fin 200 ∧ (rect 0 0 200 200).height = .fin 200 ∧
    (200 : ℚ) ≠ 0 ∧ (400 : ℚ) ≠ 0 ∧
    (_handleLayout ⟨.fin 0, .fin 0, .fin 400, .fin 400⟩ editing200).points.length = 4 ∧
    (_handleLayout ⟨.fin 0, .fin 0, .fin 400, .fin 400⟩ editing200).points[0]? =
      some (pt 20 20) ∧
    (_handleLayout ⟨.fin 0, .fin 0, .fin 400, .fin 400⟩ editing200).points[1]? =
      some (pt 200 20) ∧
    (_handleLayout ⟨.fin 0, .fin 0, .fin 400, .fin 400⟩ editing200).points[2]? =
      some (pt 200 200) ∧
    (_handleLayout ⟨.fin 0, .fin 0, .fin 400, .fin 400⟩ editing200).points[3]? =
      some (pt 20 200) := by
  have h := handleLayout_scales_points editing200 (rect 0 0 200 200) 200 200 400 400
    (.fin 0) (.fin 0) rfl rfl rfl (by norm_num) (by norm_num) (by norm_num) (by norm_num)
  have hq : JSNum.rnd (400 / 200) = .fin (400 / 200) := by norm_num [JSNum.rnd_ofNat]
  refine ⟨rfl, rfl, rfl, by norm_num, by norm_num, h.1, ?_, ?_, ?_, ?_⟩
  · have := h.2.2.2.2.2.2 0 10 10 0 0 rfl rfl rfl hq (by norm_num [JSNum.rnd_ofNat])
      (by norm_num [JSNum.rnd_ofNat]) hq (by norm_num [JSNum.rnd_ofNat])
      (by norm_num [JSNum.rnd_ofNat])
    norm_num at this; exact this
  · have := h.2.2.2.2.2.2 1 100 10 0 0 rfl rfl rfl hq (by norm_num [JSNum.rnd_ofNat])
      (by norm_num [JSNum.rnd_ofNat]) hq (by norm_num [JSNum.rnd_ofNat])
      (by norm_num [JSNum.rnd_ofNat])
    norm_num at this; exact this
  · have := h.2.2.2.2.2.2 2 100 100 0 0 rfl rfl rfl hq (by norm_num [JSNum.rnd_ofNat])
      (by norm_num [JSNum.rnd_ofNat]) hq (by norm_num [JSNum.rnd_ofNat])
      (by norm_num [JSNum.rnd_ofNat])
    norm_num at this; exact this
  · have := h.2.2.2.2.2.2 3 10 100 0 0 rfl rfl rfl hq (by norm_num [JSNum.rnd_ofNat])
      (by norm_num [JSNum.rnd_ofNat]) hq (by norm_num [JSNum.rnd_ofNat])
      (by norm_num [JSNum.rnd_ofNat])
    norm_num at this; exact this

end LayoutEvents

/-! ## The stored ratios -/

section Ratios

/-- The guarded quotient `200 / 100 || 1` is `2`. -/
theorem ratio_200_100 : ((JSNum.fin 200).div (.fin 100)).or (.fin 1) = .fin 2 := by
  rw [ratio_of_exact (by norm_num) (by norm_num) (by norm_num [JSNum.rnd_ofNat])]
  norm_num

/-- C9, counterexample: with widths and heights 100, then 200, then 400, the ratio stored
after the first layout change is `2` and the ratio stored after the second is `2` again,
not `2 * (400 / 200) = 4`. -/
theorem ratio_not_cumulative :
    (_handleLayout (rect 0 0 200 200) (withLayout (rect 0 0 100 100))).layoutRNRatioX = .fin 2 ∧
    (_handleLayout (rect 0 0 400 400)
      (_handleLayout (rect 0 0 200 200) (withLayout (rect 0 0 100 100)))).layoutRNRatioX =
        .fin 2 ∧
    (_handleLayout (rect 0 0 400 400)
      (_handleLayout (rect 0 0 200 200) (withLayout (rect 0 0 100 100)))).layoutRNRatioX ≠
      (_handleLayout (rect 0 0 200 200) (withLayout (rect 0 0 100 100))).layoutRNRatioX.mul
        ((JSNum.fin 400).div (.fin 200)) := by
  have h1 : (_handleLayout (rect 0 0 200 200)
      (withLayout (rect 0 0 100 100))).layoutRNRatioX = .fin 2 := by
    simp only [handleLayout_ratioX, withLayout, rect, oldWidth, Option.map_some',
      JSNum.ofProperty, ratio_200_100]
  have h2 : (_handleLayout (rect 0 0 400 400)
      (_handleLayout (rect 0 0 200 200) (withLayout (rect 0 0 100 100)))).layoutRNRatioX =
        .fin 2 := by
    simp only [handleLayout_ratioX, handleLayout_layout, rect, oldWidth, Option.map_some',
      JSNum.ofProperty, ratio_400_200]
  have h3 : (JSNum.fin 2).mul ((JSNum.fin 400).div (.fin 200)) = .fin 4 := by
    norm_num [JSNum.div_fin, JSNum.mul_fin, JSNum.rnd_ofNat]
  refine ⟨h1, h2, ?_⟩
  rw [h2, h1, h3]
  intro h
  simp only [JSNum.fin.injEq] at h
  norm_num at h

/-- C9, amended: after two successive layout changes, to a layout of non-zero width `w1` and
height `h1` and then to one of non-zero width `w2` and height `h2`, the stored ratios are
the binary64 quotients `w2 / w1` and `h2 / h1` whatever was stored after the first change
(rounded; `1` in place of a quotient that underflows to `0`; exactly `w2 / w1` and `h2 / h1`
when these are binary64 values): the second event replaces the stored ratio.  What composes
is the point list, re-projected once per event. -/
theorem ratio_replaced_by_latest (c : Component) (l1 l2 : Layout) (w1 h1 w2 h2 : ℚ)
    (hw1 : l1.width = .fin w1) (hh1 : l1.height = .fin h1)
    (hw2 : l2.width = .fin w2) (hh2 : l2.height = .fin h2)
    (nw1 : w1 ≠ 0) (nh1 : h1 ≠ 0) (nw2 : w2 ≠ 0) (nh2 : h2 ≠ 0) :
    (_handleLayout l2 (_handleLayout l1 c)).layoutRNRatioX =
      (JSNum.rnd (w2 / w1)).or (.fin 1) ∧
    (_handleLayout l2 (_handleLayout l1 c)).layoutRNRatioY =
      (JSNum.rnd (h2 / h1)).or (.fin 1) ∧
    ((2 : ℚ) ^ (-1074 : ℤ) ≤ |w2 / w1| →
      (_handleLayout l2 (_handleLayout l1 c)).layoutRNRatioX = JSNum.rnd (w2 / w1)) ∧
    ((2 : ℚ) ^ (-1074 : ℤ) ≤ |h2 / h1| →
      (_handleLayout l2 (_handleLayout l1 c)).layoutRNRatioY = JSNum.rnd (h2 / h1)) ∧
    (JSNum.rnd (w2 / w1) = .fin (w2 / w1) →
      (_handleLayout l2 (_handleLayout l1 c)).layoutRNRatioX = .fin (w2 / w1)) ∧
    (JSNum.rnd (h2 / h1) = .fin (h2 / h1) →
      (_handleLayout l2 (_handleLayout l1 c)).layoutRNRatioY = .fin (h2 / h1)) ∧
    (_handleLayout l2 (_handleLayout l1 c)).points =
      (_handleLayout l1 c).points.map
        (toRNLayout (_handleLayout l2 (_handleLayout l1 c)).layoutRNRatioX
          (_handleLayout l2 (_handleLayout l1 c)).layoutRNRatioY l2.x l2.y) := by
  have hx : (_handleLayout l2 (_handleLayout l1 c)).layoutRNRatioX =
      ((JSNum.fin w2).div (.fin w1)).or (.fin 1) := by
    rw [handleLayout_ratioX, handleLayout_layout]
    simp only [oldWidth, Option.map_some', JSNum.ofProperty, hw1, hw2]
  have hy : (_handleLayout l2 (_handleLayout l1 c)).layoutRNRatioY =
      ((JSNum.fin h2).div (.fin h1)).or (.fin 1) := by
    rw [handleLayout_ratioY, handleLayout_layout]
    simp only [oldHeight, Option.map_some', JSNum.ofProperty, hh1, hh2]
  refine ⟨?_, ?_, ?_, ?_, ?_, ?_, rfl⟩
  · rw [hx, ratio_eq _ nw1]
  · rw [hy, ratio_eq _ nh1]
  · intro h
    rw [hx, ratio_of_no_underflow h]
  · intro h
    rw [hy, ratio_of_no_underflow h]
  · intro h
    rw [hx, ratio_of_exact nw1 nw2 h]
  · intro h
    rw [hy, ratio_of_exact nh1 nh2 h]

/-- C9, amended, at widths and heights 100, then 200, then 400: the ratios stored after the
second change are `400 / 200`. -/
theorem ratio_replaced_by_latest_witness :
    (rect 0 0 200 200).width = .fin 200 ∧ (rect 0 0 400 400).width = .fin 400 ∧
    (200 : ℚ) ≠ 0 ∧ (400 : ℚ) ≠ 0 ∧
    (_handleLayout (rect 0 0 400 400)
      (_handleLayout (rect 0 0 200 200) (withLayout (rect 0 0 100 100)))).layoutRNRatioX =
        .fin (400 / 200) ∧
    (_handleLayout (rect 0 0 400 400)
      (_handleLayout (rect 0 0 200 200) (withLayout (rect 0 0 100 100)))).layoutRNRatioY =
        .fin (400 / 200) :=
  have h := ratio_replaced_by_latest (withLayout (rect 0 0 100 100)) (rect 0 0 200 200)
    (rect 0 0 400 400) 200 200 400 400 rfl rfl rfl rfl
    (by norm_num) (by norm_num) (by norm_num) (by norm_num)
  have hq : JSNum.rnd (400 / 200) = .fin (400 / 200) := by norm_num [JSNum.rnd_ofNat]
  ⟨rfl, rfl, by norm_num, by norm_num, h.2.2.2.2.1 hq, h.2.2.2.2.2.1 hq⟩

/-- C10, the code at the failing input: with a stored layout of width and height `0`, the
layout event 400 by 400 stores `Infinity` as ratio on both axes (`400 / 0` is truthy, so the
guard `|| 1` does not replace it), not `1`. -/
theorem ratio_after_zero_dimension :
    oldWidth (withLayout (rect 0 0 0 0)).layout = some (.fin 0) ∧
    oldHeight (withLayout (rect 0 0 0 0)).layout = some (.fin 0) ∧
    (_handleLayout (rect 0 0 400 400) (withLayout (rect 0 0 0 0))).layoutRNRatioX = .pinf ∧
    (_handleLayout (rect 0 0 400 400) (withLayout (rect 0 0 0 0))).layoutRNRatioY = .pinf ∧
    (_handleLayout (rect 0 0 400 400) (withLayout (rect 0 0 0 0))).layoutRNRatioX ≠ .fin 1 ∧
    (_handleLayout (rect 0 0 400 400) (withLayout (rect 0 0 0 0))).layoutRNRatioY ≠ .fin 1 := by
  have hq : ((JSNum.fin 400).div (.fin 0)).or (.fin 1) = .pinf := by
    simp [JSNum.div, JSNum.or, JSNum.truthy, JSNum.infOfSign]
  have hx : (_handleLayout (rect 0 0 400 400) (withLayout (rect 0 0 0 0))).layoutRNRatioX =
      .pinf := by
    rw [handleLayout_ratioX]; exact hq
  have hy : (_handleLayout (rect 0 0 400 400) (withLayout (rect 0 0 0 0))).layoutRNRatioY =
      .pinf := by
    rw [handleLayout_ratioY]; exact hq
  refine ⟨rfl, rfl, hx, hy, ?_, ?_⟩
  · rw [hx]; intro h; cases h
  · rw [hy]; intro h; cases h

/-- After a layout of width and height `0`, the layout event 400 by 400 turns the four
scenario corners into `Infinity` on both axes. -/
theorem points_after_zero_dimension :
    (_handleLayout (rect 0 0 400 400)
      { editing200 with layout := some (rect 0 0 0 0) }).points =
      [⟨.pinf, .pinf⟩, ⟨.pinf, .pinf⟩, ⟨.pinf, .pinf⟩, ⟨.pinf, .pinf⟩] := by
  have hq : ((JSNum.fin 400).div (.fin 0)).or (.fin 1) = .pinf := by
    simp [JSNum.div, JSNum.or, JSNum.truthy, JSNum.infOfSign]
  simp only [handleLayout_points, editing200, rect, oldWidth, oldHeight, Option.map_some',
    JSNum.ofProperty, hq, scenarioPoints, pt, toRNLayout, List.map]
  simp [JSNum.mul, JSNum.add, JSNum.infOfSign]

/-- Where the guard `|| 1` does give `1`: for every new layout, when the stored layout has
no width (the empty object of the constructor), or has width `0` and the new width is `0`
as well, the ratio stored for the x axis is `1`; likewise for the height and the y axis;
and the stored ratios are never `0` or `NaN`. -/
theorem ratio_defaults_to_one (layout : Layout) (c : Component) :
    ((oldWidth c.layout = none ∨
        (oldWidth c.layout = some (.fin 0) ∧ layout.width = .fin 0)) →
      (_handleLayout layout c).layoutRNRatioX = .fin 1) ∧
    ((oldHeight c.layout = none ∨
        (oldHeight c.layout = some (.fin 0) ∧ layout.height = .fin 0)) →
      (_handleLayout layout c).layoutRNRatioY = .fin 1) ∧
    (_handleLayout layout c).layoutRNRatioX.truthy = true ∧
    (_handleLayout layout c).layoutRNRatioY.truthy = true := by
  refine ⟨?_, ?_, JSNum.or_one_truthy _, JSNum.or_one_truthy _⟩
  · rintro (h | ⟨h, hl⟩)
    · rw [handleLayout_ratioX, h]
      exact JSNum.div_nan_or_one _
    · rw [handleLayout_ratioX, h, hl]
      exact JSNum.div_self_or_one _
  · rintro (h | ⟨h, hl⟩)
    · rw [handleLayout_ratioY, h]
      exact JSNum.div_nan_or_one _
    · rw [handleLayout_ratioY, h, hl]
      exact JSNum.div_self_or_one _

end Ratios

/-! ## Dragging a point -/

section Drag

/-- The points stored by the move handler, read off the definition. -/
theorem panResponderMove_points (c s : Component) (i : Nat) (g : GestureState) :
    ((_createPanResponderForPoint c i).onPanResponderMove g s).points =
      c.points.mapIdx (movePoint i g) := rfl

/-- Mapping with `movePoint` at an index outside the list changes nothing. -/
theorem mapIdx_movePoint_of_le (points : List Point) (i : Nat) (g : GestureState)
    (h : points.length ≤ i) : points.mapIdx (movePoint i g) = points := by
  apply List.ext_getElem?
  intro j
  rw [List.getElem?_mapIdx]
  cases hj : points[j]? with
  | none => rfl
  | some p =>
    have hlt : j < points.length := by
      rcases List.getElem?_eq_some_iff.mp hj with ⟨hlt, _⟩
      exact hlt
    have hne : j ≠ i := by omega
    simp [movePoint, hne]

/-- C5: for the point list `c.points` held by the drag handler of index `i` and every
displacement `(dx, dy)`, the move handler stores a list of the same length whose entry `i`
is `(x_i + dx, y_i + dy)` and whose other entries are the held points unchanged; when `i`
is outside the list the stored list is the held list.  For finite values each sum is the
binary64 sum, the exact sum rounded once, and is `x + dx`, `y + dy` exactly when those are
binary64 values. -/
theorem panResponderMove_moves_point (c s : Component) (i : Nat) (g : GestureState) :
    ((_createPanResponderForPoint c i).onPanResponderMove g s).points.length =
      c.points.length ∧
    (∀ p : Point, c.points[i]? = some p →
      ((_createPanResponderForPoint c i).onPanResponderMove g s).points[i]? =
        some ⟨p.x.add g.dx, p.y.add g.dy⟩) ∧
    (∀ x y dx dy : ℚ, c.points[i]? = some (pt x y) → g = ⟨.fin dx, .fin dy⟩ →
      ((_createPanResponderForPoint c i).onPanResponderMove g s).points[i]? =
        some ⟨JSNum.rnd (x + dx), JSNum.rnd (y + dy)⟩) ∧
    (∀ x y dx dy : ℚ, c.points[i]? = some (pt x y) → g = ⟨.fin dx, .fin dy⟩ →
      JSNum.rnd (x + dx) = .fin (x + dx) → JSNum.rnd (y + dy) = .fin (y + dy) →
      ((_createPanResponderForPoint c i).onPanResponderMove g s).points[i]? =
        some (pt (x + dx) (y + dy))) ∧
    (∀ j : Nat, j ≠ i →
      ((_createPanResponderForPoint c i).onPanResponderMove g s).points[j]? = c.points[j]?) ∧
    (c.points.length ≤ i →
      ((_createPanResponderForPoint c i).onPanResponderMove g s).points = c.points) := by
  rw [panResponderMove_points]
  refine ⟨List.length_mapIdx, ?_, ?_, ?_, ?_, ?_⟩
  · intro p hp
    rw [List.getElem?_mapIdx, hp]
    simp [movePoint]
  · intro x y dx dy hp hg
    rw [List.getElem?_mapIdx, hp, hg]
    simp [movePoint, pt, JSNum.add_fin]
  · intro x y dx dy hp hg ex ey
    rw [List.getElem?_mapIdx, hp, hg]
    simp [movePoint, pt, JSNum.add_fin, ex, ey]
  · intro j hj
    rw [List.getElem?_mapIdx]
    cases c.points[j]? with
    | none => rfl
    | some p => simp [movePoint, hj]
  · exact mapIdx_movePoint_of_le c.points i g

/-- C5 at the scenario of the specification: the corners
`[(20,20),(200,20),(200,200),(20,200)]`, index `0` and displacement `(5, 5)` give
`[(25,25),(200,20),(200,200),(20,200)]`; index `4` leaves the list as it is. -/
theorem panResponderMove_moves_point_witness :
    ({ editing200 with points := displayedPoints } : Component).points[0]? = some (pt 20 20) ∧
    ((_createPanResponderForPoint { editing200 with points := displayedPoints } 0
      ).onPanResponderMove ⟨.fin 5, .fin 5⟩
        { editing200 with points := displayedPoints }).points[0]? = some (pt (20 + 5) (20 + 5)) ∧
    ((_createPanResponderForPoint { editing200 with points := displayedPoints } 0
      ).onPanResponderMove ⟨.fin 5, .fin 5⟩
        { editing200 with points := displayedPoints }).points =
      [pt 25 25, pt 200 20, pt 200 200, pt 20 200] ∧
    ((_createPanResponderForPoint { editing200 with points := displayedPoints } 4
      ).onPanResponderMove ⟨.fin 5, .fin 5⟩
        { editing200 with points := displayedPoints }).points = displayedPoints := by
  refine ⟨rfl, ?_, ?_, ?_⟩
  · have h := (panResponderMove_moves_point { editing200 with points := displayedPoints }
      { editing200 with points := displayedPoints } 0 ⟨.fin 5, .fin 5⟩).2.2.2.1
        20 20 5 5 rfl rfl (by norm_num [JSNum.rnd_ofNat]) (by norm_num [JSNum.rnd_ofNat])
    exact h
  · simp only [panResponderMove_points, displayedPoints, List.mapIdx_cons, List.mapIdx_nil,
      movePoint, pt]
    norm_num [JSNum.add_fin, JSNum.rnd_ofNat]
  · exact (panResponderMove_moves_point { editing200 with points := displayedPoints }
      { editing200 with points := displayedPoints } 4 ⟨.fin 5, .fin 5⟩).2.2.2.2.2
        (by simp [displayedPoints])

end Drag

/-! ## Restart -/

section Restart

/-- C8: for every component state, `restart` sets the photo to none, the points to the
empty list and `zoomOnPoint` to null, and leaves the stored layout and the four transform
fields as they were; with layout 400 by 400 at `(0, 0)` and four stored points, the points
are empty, the photo is none and the layout is still 400 by 400 at `(0, 0)`. -/
theorem restart_clears_session :
    (∀ c : Component,
      (restart c).photo = none ∧ (restart c).points = [] ∧
      (restart c).zoomOnPoint = .null ∧ (restart c).layout = c.layout ∧
      (restart c).layoutRNRatioX = c.layoutRNRatioX ∧
      (restart c).layoutRNRatioY = c.layoutRNRatioY ∧
      (restart c).layoutRNOriginX = c.layoutRNOriginX ∧
      (restart c).layoutRNOriginY = c.layoutRNOriginY) ∧
    (restart { editing200 with
        points := displayedPoints
        zoomOnPoint := .point (pt 20 20)
        layout := some (rect 0 0 400 400) }).points = [] ∧
    (restart { editing200 with
        points := displayedPoints
        zoomOnPoint := .point (pt 20 20)
        layout := some (rect 0 0 400 400) }).photo = none ∧
    (restart { editing200 with
        points := displayedPoints
        zoomOnPoint := .point (pt 20 20)
        layout := some (rect 0 0 400 400) }).zoomOnPoint = .null ∧
    (restart { editing200 with
        points := displayedPoints
        zoomOnPoint := .point (pt 20 20)
        layout := some (rect 0 0 400 400) }).layout = some (rect 0 0 400 400) :=
  ⟨fun _ => ⟨rfl, rfl, rfl, rfl, rfl, rfl, rfl, rfl⟩, rfl, rfl, rfl, rfl⟩

end Restart

/-! ## Cropping -/

section Crop

/-- Back-projection keeps the number of points. -/
theorem length_getPointsForNativeLayout (c : Component) :
    (_getPointsForNativeLayout c).length = c.points.length := by
  simp [_getPointsForNativeLayout]

/-- C3, counterexample: with no point stored (fewer than 4) and a crop service that
resolves, `cropImage` calls the crop service, with the empty list, and resolves with the
service's value instead of failing. -/
theorem cropImage_without_points :
    noDocument.points.length < 4 ∧
    (cropImage scenarioServices noDocument).calls = [.crop []] ∧
    Call.crop [] ∈ (cropImage scenarioServices noDocument).calls ∧
    (cropImage scenarioServices noDocument).result = .ok "/cache/cropped.jpg" := by
  refine ⟨by simp [noDocument], rfl, ?_, rfl⟩
  simp [cropImage, _getPointsForNativeLayout, noDocument]

/-- C3, amended: for every state, whatever the number of stored points, `cropImage` makes
exactly one call, to the crop service, with the back-projected points (as many as are
stored), leaves the state as it is, and resolves or rejects as that call does; so it fails
exactly when the service rejects the list it was given. -/
theorem cropImage_delegates (sv : Services) (c : Component) :
    (cropImage sv c).calls = [.crop (_getPointsForNativeLayout c)] ∧
    (_getPointsForNativeLayout c).length = c.points.length ∧
    (cropImage sv c).state = c ∧
    (cropImage sv c).result = sv.crop (_getPointsForNativeLayout c) ∧
    ((∃ e, (cropImage sv c).result = .error e) ↔
      ∃ e, sv.crop (_getPointsForNativeLayout c) = .error e) :=
  ⟨rfl, length_getPointsForNativeLayout c, rfl, rfl, Iff.rfl⟩

end Crop

/-! ## Capture -/

section Capture

/-- The ratio in force in `live400` is `2` on both axes and the origin is `(0, 0)`. -/
theorem live400_transform :
    live400.layoutRNRatioX = .fin 2 ∧ live400.layoutRNRatioY = .fin 2 ∧
    live400.layoutRNOriginX = .fin 0 ∧ live400.layoutRNOriginY = .fin 0 := by
  have hr := ratio_400_200
  refine ⟨?_, ?_, rfl, rfl⟩
  · simp only [live400, handleLayout_ratioX, withLayout, rect, oldWidth, Option.map_some',
      JSNum.ofProperty, hr]
  · simp only [live400, handleLayout_ratioY, withLayout, rect, oldHeight, Option.map_some',
      JSNum.ofProperty, hr]

/-- C6, counterexample: with ratio `2` in force at capture time and a detector that finds
`[(10,10),(100,10),(100,100),(10,100)]`, `_handlePressCapture` succeeds and stores these
four points as they are, not their projection `[(20,20),(200,20),(200,200),(20,200)]`. -/
theorem capture_stores_unprojected :
    live400.layoutRNRatioX = .fin 2 ∧ live400.layoutRNRatioY = .fin 2 ∧
    (_handlePressCapture scenarioServices live400).result = .ok () ∧
    (_handlePressCapture scenarioServices live400).state.points = scenarioPoints ∧
    scenarioPoints.map (toRNLayout live400.layoutRNRatioX live400.layoutRNRatioY
      live400.layoutRNOriginX live400.layoutRNOriginY) = displayedPoints ∧
    (_handlePressCapture scenarioServices live400).state.points ≠
      scenarioPoints.map (toRNLayout live400.layoutRNRatioX live400.layoutRNRatioY
        live400.layoutRNOriginX live400.layoutRNOriginY) := by
  obtain ⟨hx, hy, hox, hoy⟩ := live400_transform
  have hs : (_handlePressCapture scenarioServices live400).state.points = scenarioPoints := rfl
  have hd : scenarioPoints.map (toRNLayout live400.layoutRNRatioX live400.layoutRNRatioY
      live400.layoutRNOriginX live400.layoutRNOriginY) = displayedPoints := by
    rw [hx, hy, hox, hoy]
    simp only [scenarioPoints, displayedPoints, pt, toRNLayout, List.map]
    norm_num [JSNum.mul_fin, JSNum.add_fin, JSNum.rnd_ofNat]
  refine ⟨hx, hy, rfl, hs, hd, ?_⟩
  rw [hs, hd]
  intro h
  simp only [scenarioPoints, displayedPoints, pt, List.cons.injEq, Point.mk.injEq,
    JSNum.fin.injEq] at h
  norm_num at h

/-- C6, amended: when the capture service and the detection service both succeed,
`_handlePressCapture` succeeds and stores the detector's result as returned, same points in
the same order, without applying the ratios or the origin, together with the photo; the
detector was given the photo path and the stored layout, the transform fields and the layout
are unchanged, and `onCapture` is called once, last. -/
theorem capture_stores_detector_result (sv : Services) (c : Component) (uri : String)
    (points : List Point) (hcam : sv.takePictureAsync = .ok uri)
    (hdet : sv.detectEdges (nativePath uri) c.layout = .ok points) :
    (_handlePressCapture sv c).result = .ok () ∧
    (_handlePressCapture sv c).state.points = points ∧
    (_handlePressCapture sv c).state.photo = some uri ∧
    (_handlePressCapture sv c).state.layout = c.layout ∧
    (_handlePressCapture sv c).state.layoutRNRatioX = c.layoutRNRatioX ∧
    (_handlePressCapture sv c).state.layoutRNRatioY = c.layoutRNRatioY ∧
    (_handlePressCapture sv c).state.layoutRNOriginX = c.layoutRNOriginX ∧
    (_handlePressCapture sv c).state.layoutRNOriginY = c.layoutRNOriginY ∧
    (_handlePressCapture sv c).calls =
      [.takePictureAsync, .detectEdges (nativePath uri) c.layout, .onCapture] := by
  simp [_handlePressCapture, hcam, hdet]

/-- C6, amended, at the scenario: the four detector points are stored as returned. -/
theorem capture_stores_detector_result_witness :
    scenarioServices.takePictureAsync = .ok "file:///img1.jpg" ∧
    scenarioServices.detectEdges (nativePath "file:///img1.jpg") live400.layout =
      .ok scenarioPoints ∧
    (_handlePressCapture scenarioServices live400).state.points = scenarioPoints ∧
    (_handlePressCapture scenarioServices live400).state.photo = some "file:///img1.jpg" :=
  have h := capture_stores_detector_result scenarioServices live400 "file:///img1.jpg"
    scenarioPoints rfl rfl
  ⟨rfl, rfl, h.2.1, h.2.2.1⟩

/-- C7, counterexample: when the capture service succeeds and `detectEdges` rejects,
`_handlePressCapture` rejects with that error, and the state is left without a photo: the
session does not enter the editing state. -/
theorem capture_fails_when_detection_fails :
    detectionFails.takePictureAsync = .ok "file:///img1.jpg" ∧
    (_handlePressCapture detectionFails live400).result = .error "detectEdges rejected" ∧
    (_handlePressCapture detectionFails live400).state.photo = none ∧
    (_handlePressCapture detectionFails live400).state = live400 :=
  ⟨rfl, rfl, rfl, rfl⟩

/-- C7, amended: if the capture service succeeds and the detection service rejects,
`_handlePressCapture` rejects with the detection error: the state is left exactly as it
was (no photo stored, points unchanged) and `onCapture` is not called. -/
theorem capture_propagates_detection_failure (sv : Services) (c : Component) (uri e : String)
    (hcam : sv.takePictureAsync = .ok uri)
    (hdet : sv.detectEdges (nativePath uri) c.layout = .error e) :
    (_handlePressCapture sv c).result = .error e ∧
    (_handlePressCapture sv c).state = c ∧
    Call.onCapture ∉ (_handlePressCapture sv c).calls := by
  simp [_handlePressCapture, hcam, hdet]

/-- C7, amended, at the scenario with a rejecting detector. -/
theorem capture_propagates_detection_failure_witness :
    detectionFails.takePictureAsync = .ok "file:///img1.jpg" ∧
    detectionFails.detectEdges (nativePath "file:///img1.jpg") live400.layout =
      .error "detectEdges rejected" ∧
    (_handlePressCapture detectionFails live400).result = .error "detectEdges rejected" ∧
    (_handlePressCapture detectionFails live400).state = live400 :=
  have h := capture_propagates_detection_failure detectionFails live400 "file:///img1.jpg"
    "detectEdges rejected" rfl rfl
  ⟨rfl, rfl, h.1, h.2.1⟩

end Capture

end DocumentScanner
